import Mathlib

/-!
Verification of the relay-bot core from `telegram_bot.py`.

The Python source is shallowly embedded: each class method that the
specification's claims talk about becomes a Lean function over explicit
state.  Timestamps (Python floats from `time.time()`) are modelled as
rationals, identities as integers, and the Mongo-backed repositories as
in-memory lists carried in a `Store` structure.  Fallible paths (an
uncaught Python exception, such as `min([])` on an empty list) are
modelled with `Option`.
-/

/-- Python `int(q)` on a float truncates toward zero. -/
def pyTrunc (q : ℚ) : ℤ := if 0 ≤ q then ⌊q⌋ else -⌊-q⌋

/-- Embedding of `RateLimiter.check_rate_limit`.  `times` is the identity's
current entry of `_user_messages`, `now` is `time.time()`, `window` is
`RATE_LIMIT_WINDOW`, `maxEvents` is `RATE_LIMIT_MESSAGES`.  Returns
`((allowed, wait_time), new_window)`; `none` models the uncaught
`ValueError` that Python's `min` raises on an empty list (reachable only
when `maxEvents = 0`). -/
def check_rate_limit (times : List ℚ) (now window : ℚ) (maxEvents : ℕ) :
    Option ((Bool × ℤ) × List ℚ) :=
  let pruned := times.filter (fun t => decide (now - window < t))
  if maxEvents ≤ pruned.length then
    pruned.min?.map
      (fun oldest => ((false, max 0 (pyTrunc (oldest + window - now) + 1)), pruned))
  else
    some ((true, 0), pruned ++ [now])

/-- On rationals, binary `min` always returns one of its arguments
(side condition of `List.min?_mem`). -/
theorem rat_min_eq_or (a b : ℚ) : a ⊓ b = a ∨ a ⊓ b = b := by
  rcases le_total a b with h | h
  · exact Or.inl (min_eq_left h)
  · exact Or.inr (min_eq_right h)

/-- A surviving timestamp in the pruned window is strictly newer than
`now - window`, so the raw wait quantity is strictly positive. -/
theorem pruned_min_pos (times : List ℚ) (now window : ℚ) (oldest : ℚ)
    (h : (times.filter (fun t => decide (now - window < t))).min? = some oldest) :
    0 < oldest + window - now := by
  have hmem := List.min?_mem rat_min_eq_or h
  have hgt : now - window < oldest := by
    have := List.of_mem_filter hmem
    simpa using this
  linarith

/-- For a strictly positive rational, Python truncation agrees with floor
and is nonnegative. -/
theorem pyTrunc_pos_eq_floor (q : ℚ) (h : 0 < q) : pyTrunc q = ⌊q⌋ := by
  simp [pyTrunc, le_of_lt h]

/-- C1: a `check_rate_limit` call first drops from the window every
timestamp `t` with `t ≤ now - window`; on denial (surviving count at least
`maxEvents`) it returns `false` with `retry_after` equal to
`floor (min_remaining + window - now) + 1` clamped to be nonnegative and
appends nothing; otherwise it appends `now` and admits.  Moreover, with
`maxEvents = 5` and `window = 60`: five calls at `t = 0` are all admitted,
a sixth call at `t = 0` is denied, and a call at `t = 61` is admitted. -/
theorem check_rate_limit_spec (times : List ℚ) (now window : ℚ) (maxEvents : ℕ) :
    (check_rate_limit times now window maxEvents =
      (let pruned := times.filter (fun t => !decide (t ≤ now - window))
       if maxEvents ≤ pruned.length then
         pruned.min?.map
           (fun oldest => ((false, max 0 (⌊oldest + window - now⌋ + 1)), pruned))
       else
         some ((true, 0), pruned ++ [now])))
    ∧ check_rate_limit [] 0 60 5 = some ((true, 0), [0])
    ∧ check_rate_limit [0] 0 60 5 = some ((true, 0), [0, 0])
    ∧ check_rate_limit [0, 0] 0 60 5 = some ((true, 0), [0, 0, 0])
    ∧ check_rate_limit [0, 0, 0] 0 60 5 = some ((true, 0), [0, 0, 0, 0])
    ∧ check_rate_limit [0, 0, 0, 0] 0 60 5 = some ((true, 0), [0, 0, 0, 0, 0])
    ∧ check_rate_limit [0, 0, 0, 0, 0] 0 60 5 =
        some ((false, 61), [0, 0, 0, 0, 0])
    ∧ check_rate_limit [0, 0, 0, 0, 0] 61 60 5 = some ((true, 0), [61]) := by
  refine ⟨?_, by norm_num [check_rate_limit], by norm_num [check_rate_limit],
    by norm_num [check_rate_limit], by norm_num [check_rate_limit],
    by norm_num [check_rate_limit],
    by simp [check_rate_limit, List.min?, pyTrunc],
    by norm_num [check_rate_limit]⟩
  have hfilter : times.filter (fun t => decide (now - window < t)) =
      times.filter (fun t => !decide (t ≤ now - window)) := by
    apply List.filter_congr
    intro x _
    by_cases hx : now - window < x
    · simp [hx, not_le.mpr hx]
    · simp [hx, not_lt.mp hx]
  simp only [check_rate_limit, hfilter]
  by_cases hlen :
      maxEvents ≤ (times.filter (fun t => !decide (t ≤ now - window))).length
  · simp only [if_pos hlen]
    rcases hmin : (times.filter (fun t => !decide (t ≤ now - window))).min? with
      _ | oldest
    · rfl
    · have hpos : 0 < oldest + window - now := by
        apply pruned_min_pos times now window oldest
        rw [hfilter]
        exact hmin
      simp [pyTrunc_pos_eq_floor _ hpos]
  · simp only [if_neg hlen]

/-- C6: every denial carries a strictly positive `retry_after`: each
surviving timestamp exceeds `now - window`, so the floor is nonnegative
and adding one makes the clamped wait at least one. -/
theorem check_rate_limit_denied_pos (times : List ℚ) (now window : ℚ)
    (maxEvents : ℕ) (r : ℤ) (s : List ℚ)
    (h : check_rate_limit times now window maxEvents = some ((false, r), s)) :
    0 < r := by
  simp only [check_rate_limit] at h
  by_cases hlen :
      maxEvents ≤ (times.filter (fun t => decide (now - window < t))).length
  · rw [if_pos hlen] at h
    rcases hmin : (times.filter (fun t => decide (now - window < t))).min? with
      _ | oldest
    · rw [hmin] at h
      simp at h
    · rw [hmin] at h
      simp only [Option.map_some'] at h
      have hr : r = max 0 (pyTrunc (oldest + window - now) + 1) := by
        have h' := Option.some.inj h
        have := congrArg (fun p => p.1.2) h'
        simpa using this.symm
      have hpos : 0 < oldest + window - now := pruned_min_pos times now window oldest hmin
      have hfl : (0 : ℤ) ≤ ⌊oldest + window - now⌋ :=
        Int.floor_nonneg.mpr (le_of_lt hpos)
      rw [hr, pyTrunc_pos_eq_floor _ hpos]
      omega
  · rw [if_neg hlen] at h
    simp at h

/-- Witness for C6 at a concrete denial: the sixth call at `t = 0` under
the default configuration is denied with wait 61, and the theorem yields
its positivity. -/
theorem check_rate_limit_denied_pos_witness :
    check_rate_limit [0, 0, 0, 0, 0] 0 60 5 = some ((false, 61), [0, 0, 0, 0, 0])
    ∧ (0 : ℤ) < 61 :=
  ⟨by simp [check_rate_limit, List.min?, pyTrunc],
   check_rate_limit_denied_pos [0, 0, 0, 0, 0] 0 60 5 61 [0, 0, 0, 0, 0]
     (by simp [check_rate_limit, List.min?, pyTrunc])⟩

/-- Embedding of `AdminManager._admins` membership test `is_admin`. -/
def is_admin (admins : Finset ℤ) (uid : ℤ) : Bool := decide (uid ∈ admins)

/-- Embedding of `AdminManager.add_admin`: insert when absent and report
`true`, otherwise leave the set alone and report `false`. -/
def add_admin (admins : Finset ℤ) (uid : ℤ) : Bool × Finset ℤ :=
  if uid ∉ admins then (true, insert uid admins) else (false, admins)

/-- Embedding of `AdminManager.remove_admin`: discard only when the
identity is present and more than one admin remains. -/
def remove_admin (admins : Finset ℤ) (uid : ℤ) : Bool × Finset ℤ :=
  if uid ∈ admins ∧ 1 < admins.card then (true, admins.erase uid) else (false, admins)

/-- An admin-registry operation, for reasoning about arbitrary
sequences of `add_admin` and `remove_admin` calls. -/
inductive AdminOp
  | add (uid : ℤ)
  | remove (uid : ℤ)

/-- State change performed by one registry operation (the boolean result
is dropped). -/
def apply_admin_op (admins : Finset ℤ) : AdminOp → Finset ℤ
  | AdminOp.add uid => (add_admin admins uid).2
  | AdminOp.remove uid => (remove_admin admins uid).2

/-- Each single registry operation preserves nonemptiness of the set. -/
theorem apply_admin_op_nonempty (admins : Finset ℤ) (op : AdminOp)
    (h : admins.Nonempty) : (apply_admin_op admins op).Nonempty := by
  cases op with
  | add uid =>
    by_cases hmem : uid ∈ admins
    · simpa [apply_admin_op, add_admin, hmem] using h
    · simp [apply_admin_op, add_admin, hmem]
  | remove uid =>
    by_cases hc : uid ∈ admins ∧ 1 < admins.card
    · simp only [apply_admin_op, remove_admin, if_pos hc]
      rw [← Finset.card_pos, Finset.card_erase_of_mem hc.1]
      omega
    · simpa [apply_admin_op, remove_admin, hc] using h

/-- C2: `remove_admin` refuses (returns `false`, set unchanged) when the
identity is absent or is the sole remaining admin, and removes otherwise;
consequently any sequence of add/remove operations keeps a nonempty set
nonempty.  Concretely: from the singleton `{1}`, removing `1` fails and
leaves `{1}`; adding `2` and then removing `1` succeeds, leaving `{2}`. -/
theorem remove_admin_spec (admins : Finset ℤ) (uid : ℤ) :
    (uid ∉ admins → remove_admin admins uid = (false, admins))
    ∧ (admins = {uid} → remove_admin admins uid = (false, admins))
    ∧ (uid ∈ admins → admins ≠ {uid} →
        remove_admin admins uid = (true, admins.erase uid))
    ∧ (∀ ops : List AdminOp, admins.Nonempty →
        (ops.foldl apply_admin_op admins).Nonempty)
    ∧ remove_admin {1} 1 = (false, ({1} : Finset ℤ))
    ∧ (add_admin {1} 2).2 = ({1, 2} : Finset ℤ)
    ∧ remove_admin ({1, 2} : Finset ℤ) 1 = (true, ({2} : Finset ℤ)) := by
  refine ⟨?_, ?_, ?_, ?_, by decide, by decide, by decide⟩
  · intro habs
    simp [remove_admin, habs]
  · intro hsingle
    subst hsingle
    simp [remove_admin]
  · intro hmem hne
    have hcard : 1 < admins.card := by
      have h1 : 1 ≤ admins.card := Finset.one_le_card.mpr ⟨uid, hmem⟩
      rcases lt_or_eq_of_le h1 with hlt | heq
      · exact hlt
      · exfalso
        apply hne
        rcases Finset.card_eq_one.mp heq.symm with ⟨a, ha⟩
        have huid : uid = a := by
          have hm := hmem
          rw [ha] at hm
          simpa using hm
        rw [ha, huid]
    simp [remove_admin, hmem, hcard]
  · intro ops
    induction ops generalizing admins with
    | nil => intro h; simpa using h
    | cons op rest ih =>
      intro h
      exact ih _ (apply_admin_op_nonempty admins op h)

/-- Witness for C2 at concrete inputs: identity `3` is not in `{1, 2}`,
`{1}` is the singleton of `1`, and `1` is a removable member of `{1, 2}`;
the theorem then yields the refusals, the successful removal, the
nonemptiness of the set after a sample operation sequence, and the
concrete example facts. -/
theorem remove_admin_spec_witness :
    remove_admin {1, 2} 3 = (false, ({1, 2} : Finset ℤ))
    ∧ remove_admin {1} 1 = (false, ({1} : Finset ℤ))
    ∧ remove_admin {1, 2} 1 = (true, ({2} : Finset ℤ))
    ∧ (([AdminOp.add 2, AdminOp.remove 1, AdminOp.remove 2].foldl
        apply_admin_op {1}).Nonempty) :=
  ⟨(remove_admin_spec {1, 2} 3).1 (by decide),
   (remove_admin_spec {1} 1).2.1 rfl,
   (remove_admin_spec {1, 2} 1).2.2.1 (by decide) (by decide),
   (remove_admin_spec {1} 0).2.2.2.1 [AdminOp.add 2, AdminOp.remove 1, AdminOp.remove 2]
     ⟨1, by decide⟩⟩

/-- C9: adding an identity not yet in the set returns `true` and inserts
it; immediately adding it again returns `false` and leaves the set
unchanged, which still contains the identity (sets hold each member
exactly once). -/
theorem add_admin_twice (admins : Finset ℤ) (uid : ℤ) (h : uid ∉ admins) :
    add_admin admins uid = (true, insert uid admins)
    ∧ add_admin (add_admin admins uid).2 uid = (false, insert uid admins)
    ∧ uid ∈ (add_admin (add_admin admins uid).2 uid).2 := by
  have h1 : add_admin admins uid = (true, insert uid admins) := by
    simp [add_admin, h]
  have h2 : add_admin (add_admin admins uid).2 uid = (false, insert uid admins) := by
    rw [h1]
    simp [add_admin]
  exact ⟨h1, h2, by rw [h2]; exact Finset.mem_insert_self uid admins⟩

/-- Witness for C9: identity `5` is not in the empty registry; after the
double add, the registry is `{5}` and contains `5`. -/
theorem add_admin_twice_witness :
    add_admin ∅ 5 = (true, ({5} : Finset ℤ))
    ∧ add_admin (add_admin ∅ 5).2 5 = (false, ({5} : Finset ℤ))
    ∧ (5 : ℤ) ∈ (add_admin (add_admin ∅ 5).2 5).2 :=
  add_admin_twice ∅ 5 (by decide)

/-- Embedding of the `UserModel` dataclass (the two timestamp strings are
irrelevant to every claim and are omitted). -/
structure UserModel where
  user_id : ℤ
  username : Option String := none
  first_name : Option String := none
  last_name : Option String := none
  is_blocked : Bool := false
deriving DecidableEq

/-- Embedding of the `MessageModel` dataclass / the document written by
`MessageRepository.save_message`. -/
structure MessageModel where
  user_id : ℤ
  message_text : String
  direction : String
  admin_id : Option ℤ := none
deriving DecidableEq

/-- The Mongo database: the `users` collection (unique `user_id` index)
and the append-only `messages` collection. -/
structure Store where
  users : List UserModel
  messages : List MessageModel
deriving DecidableEq

/-- Embedding of `UserRepository.get_by_id`: `find_one` on `user_id`. -/
def get_by_id (st : Store) (uid : ℤ) : Option UserModel :=
  st.users.find? (fun u => u.user_id == uid)

/-- Embedding of `UserRepository.is_blocked`: the record's flag, or
`false` for an unknown user. -/
def user_is_blocked (st : Store) (uid : ℤ) : Bool :=
  match get_by_id st uid with
  | some u => u.is_blocked
  | none => false

/-- Embedding of `UserRepository.create_or_update`: upsert that refreshes
the display fields and, on insert only, initialises `is_blocked := false`. -/
def create_or_update (st : Store) (uid : ℤ)
    (uname fname lname : Option String) : Store :=
  if st.users.any (fun u => u.user_id == uid) then
    { st with users := st.users.map (fun u =>
        if u.user_id == uid then
          { u with username := uname, first_name := fname, last_name := lname }
        else u) }
  else
    { st with users := st.users ++
        [{ user_id := uid, username := uname, first_name := fname,
           last_name := lname, is_blocked := false }] }

/-- Embedding of `UserRepository.get_all_active`: the non-blocked users,
truncated by the query's `limit(1000)`. -/
def get_all_active (st : Store) : List UserModel :=
  (st.users.filter (fun u => !u.is_blocked)).take 1000

/-- Embedding of `UserRepository.get_user_count`:
`count_documents({})`, i.e. every user regardless of the blocked flag. -/
def get_user_count (st : Store) : ℕ := st.users.length

/-- Embedding of `MessageRepository.save_message`: insert one document. -/
def save_message (st : Store) (uid : ℤ) (text direction : String)
    (admin : Option ℤ) : Store :=
  { st with messages := st.messages ++
      [{ user_id := uid, message_text := text, direction := direction,
         admin_id := admin }] }

/-- Process-local bot state touched by `handle_user_message`: the store,
the rate-limiter's per-identity windows (`defaultdict(list)`), and the
admin set in its iteration order. -/
structure BotState where
  store : Store
  windows : ℤ → List ℚ
  admins : List ℤ

/-- Write-back of one identity's rate window into the `_user_messages`
dictionary. -/
def updateWindow (w : ℤ → List ℚ) (uid : ℤ) (l : List ℚ) : ℤ → List ℚ :=
  fun i => if i = uid then l else w i

/-- The single reply `handle_user_message` sends back to the user. -/
inductive UserNotice
  | blocked
  | throttled (wait : ℤ)
  | ackSuccess
  | ackFailure
deriving DecidableEq

/-- Observable outcome of one `handle_user_message` call: the new state,
the admins to whom delivery was attempted, those for whom it succeeded,
and the reply sent to the user. -/
structure RelayResult where
  state : BotState
  attempts : List ℤ
  delivered : List ℤ
  userNotice : Option UserNotice

/-- Embedding of `handle_user_message`.  `deliverOk a` tells whether
`bot.send_message` to admin `a` succeeds (the `try`/`except` around each
fan-out delivery).  `none` models an uncaught exception escaping
`check_rate_limit`. -/
def handle_user_message (st : BotState) (deliverOk : ℤ → Bool) (uid : ℤ)
    (uname fname lname : Option String) (text : Option String) (now : ℚ)
    (maxEvents : ℕ) (window : ℚ) : Option RelayResult :=
  if st.admins.contains uid then
    some ⟨st, [], [], none⟩
  else if user_is_blocked st.store uid then
    some ⟨st, [], [], some UserNotice.blocked⟩
  else
    match check_rate_limit (st.windows uid) now window maxEvents with
    | none => none
    | some ((allowed, wait), w') =>
      let st1 : BotState := { st with windows := updateWindow st.windows uid w' }
      if allowed then
        let st2 : BotState :=
          { st1 with store := create_or_update st1.store uid uname fname lname }
        let mtext := text.getD "[Media message]"
        let st3 : BotState :=
          { st2 with store := save_message st2.store uid mtext "user_to_admin" none }
        let delivered := st.admins.filter deliverOk
        some ⟨st3, st.admins, delivered,
          some (if 0 < delivered.length then UserNotice.ackSuccess
                else UserNotice.ackFailure)⟩
      else
        some ⟨st1, [], [], some (UserNotice.throttled wait)⟩

/-- The upsert touches only the `users` collection. -/
theorem create_or_update_messages (st : Store) (uid : ℤ)
    (uname fname lname : Option String) :
    (create_or_update st uid uname fname lname).messages = st.messages := by
  unfold create_or_update
  split <;> rfl

/-- C5: a message from a blocked non-admin changes nothing: the whole bot
state (store, rate windows, admin set) is returned untouched, no fan-out
delivery is attempted, and the only output is the blocked notice. -/
theorem handle_user_message_blocked (st : BotState) (deliverOk : ℤ → Bool)
    (uid : ℤ) (uname fname lname : Option String) (text : Option String)
    (now : ℚ) (maxEvents : ℕ) (window : ℚ)
    (hadm : st.admins.contains uid = false)
    (hblk : user_is_blocked st.store uid = true) :
    handle_user_message st deliverOk uid uname fname lname text now maxEvents
      window = some ⟨st, [], [], some UserNotice.blocked⟩ := by
  have hadm' : uid ∉ st.admins := by simpa using hadm
  simp [handle_user_message, hadm', hblk]

/-- Witness for C5: a store holding the single blocked user `7`, one
admin `1`, and empty rate windows; the handler returns the state
unchanged with only the blocked notice. -/
theorem handle_user_message_blocked_witness :
    handle_user_message
      ⟨⟨[⟨7, none, none, none, true⟩], []⟩, fun _ => [], [1]⟩
      (fun _ => true) 7 none none none (some "hi") 0 5 60 =
    some ⟨⟨⟨[⟨7, none, none, none, true⟩], []⟩, fun _ => [], [1]⟩,
      [], [], some UserNotice.blocked⟩ :=
  handle_user_message_blocked
    ⟨⟨[⟨7, none, none, none, true⟩], []⟩, fun _ => [], [1]⟩
    (fun _ => true) 7 none none none (some "hi") 0 5 60
    (by decide) (by decide)

/-- C4: for an admitted message from a non-blocked non-admin, the message
is persisted with direction `user_to_admin` whatever the fan-out does,
delivery is attempted to every admin (one admin's failure never removes
another from the attempt list), at least one success yields the success
acknowledgment, and all-failures yields the failure acknowledgment. -/
theorem handle_user_message_admitted (st : BotState) (deliverOk : ℤ → Bool)
    (uid : ℤ) (uname fname lname : Option String) (text : Option String)
    (now : ℚ) (maxEvents : ℕ) (window : ℚ) (wait : ℤ) (w' : List ℚ)
    (hadm : st.admins.contains uid = false)
    (hblk : user_is_blocked st.store uid = false)
    (hrate : check_rate_limit (st.windows uid) now window maxEvents =
      some ((true, wait), w')) :
    ∃ r : RelayResult,
      handle_user_message st deliverOk uid uname fname lname text now maxEvents
        window = some r
      ∧ r.state.store.messages = st.store.messages ++
          [{ user_id := uid, message_text := text.getD "[Media message]",
             direction := "user_to_admin", admin_id := none }]
      ∧ r.attempts = st.admins
      ∧ ((∃ a ∈ st.admins, deliverOk a = true) →
          r.userNotice = some UserNotice.ackSuccess)
      ∧ ((∀ a ∈ st.admins, deliverOk a = false) →
          r.userNotice = some UserNotice.ackFailure) := by
  refine ⟨?_, ?_, ?_, ?_, ?_, ?_⟩
  · exact ⟨{ st with
      windows := updateWindow st.windows uid w',
      store := save_message
        (create_or_update { st with windows := updateWindow st.windows uid w' }.store
          uid uname fname lname)
        uid (text.getD "[Media message]") "user_to_admin" none },
      st.admins, st.admins.filter deliverOk,
      some (if 0 < (st.admins.filter deliverOk).length then UserNotice.ackSuccess
            else UserNotice.ackFailure)⟩
  · have hadm' : uid ∉ st.admins := by simpa using hadm
    simp [handle_user_message, hadm', hblk, hrate]
  · simp [save_message, create_or_update_messages]
  · rfl
  · intro hex
    have hne : st.admins.filter deliverOk ≠ [] := by
      rcases hex with ⟨a, ha, hok⟩
      intro hnil
      have := List.filter_eq_nil_iff.mp hnil a ha
      simp [hok] at this
    have hpos : 0 < (st.admins.filter deliverOk).length :=
      List.length_pos.mpr hne
    simp [hpos]
  · intro hall
    have hnil : st.admins.filter deliverOk = [] := by
      apply List.filter_eq_nil_iff.mpr
      intro a ha
      simp [hall a ha]
    simp [hnil]

/-- Witness for C4: empty store, two admins `1` and `2` of which only `1`
is reachable, user `7` sending "hi" at `t = 0` under the default limits;
the theorem applies and the success branch fires. -/
theorem handle_user_message_admitted_witness :
    ∃ r : RelayResult,
      handle_user_message ⟨⟨[], []⟩, fun _ => [], [1, 2]⟩
        (fun a => a == 1) 7 none none none (some "hi") 0 5 60 = some r
      ∧ r.state.store.messages = ([] : List MessageModel) ++
          [{ user_id := 7, message_text := "hi",
             direction := "user_to_admin", admin_id := none }]
      ∧ r.attempts = [1, 2]
      ∧ ((∃ a ∈ ([1, 2] : List ℤ), (fun a => a == (1 : ℤ)) a = true) →
          r.userNotice = some UserNotice.ackSuccess)
      ∧ ((∀ a ∈ ([1, 2] : List ℤ), (fun a => a == (1 : ℤ)) a = false) →
          r.userNotice = some UserNotice.ackFailure) :=
  handle_user_message_admitted ⟨⟨[], []⟩, fun _ => [], [1, 2]⟩
    (fun a => a == 1) 7 none none none (some "hi") 0 5 60 0 [0]
    (by decide) (by decide) (by norm_num [check_rate_limit])

/-- Observable outcome of one `handle_admin_reply` call: the delivery
attempt and its success, the message log, the notice shown to the admin
(`some true` = sent, `some false` = failure report), the remaining
`reply_to_user` key, and whether the conversation ended. -/
structure ReplyResult where
  attempted : Option ℤ
  deliveredTo : Option ℤ
  msgs : List MessageModel
  adminNoticeOk : Option Bool
  replyTo : Option ℤ
  ended : Bool
deriving DecidableEq

/-- Embedding of `handle_admin_reply`.  `replyTo` is the
`reply_to_user` entry of `context.user_data`; `deliverOk` is whether
`bot.send_message` to the target user succeeds.  On failure the
`except` branch reports to the admin and skips persistence; the key
deletion and `ConversationHandler.END` run on every path. -/
def handle_admin_reply (replyTo : Option ℤ) (msgs : List MessageModel)
    (adminId : ℤ) (replyText : String) (deliverOk : Bool) : ReplyResult :=
  match replyTo with
  | none => ⟨none, none, msgs, none, none, true⟩
  | some uid =>
    if deliverOk then
      ⟨some uid, some uid,
       msgs ++ [{ user_id := uid, message_text := replyText,
                  direction := "admin_to_user", admin_id := some adminId }],
       some true, none, true⟩
    else
      ⟨some uid, none, msgs, some false, none, true⟩

/-- C8: when delivery of a reply fails, the failure is reported to the
admin, the conversation state still returns to idle (the pending target
is cleared and the conversation ends), exactly one delivery attempt was
made, and a subsequent free text from the same admin without re-entering
the flow attempts no delivery at all. -/
theorem handle_admin_reply_failure (uid adminId : ℤ)
    (msgs msgs2 : List MessageModel) (t t2 : String) (ok2 : Bool) :
    (handle_admin_reply (some uid) msgs adminId t false).adminNoticeOk = some false
    ∧ (handle_admin_reply (some uid) msgs adminId t false).replyTo = none
    ∧ (handle_admin_reply (some uid) msgs adminId t false).ended = true
    ∧ (handle_admin_reply (some uid) msgs adminId t false).attempted = some uid
    ∧ (handle_admin_reply (some uid) msgs adminId t false).deliveredTo = none
    ∧ (handle_admin_reply
        ((handle_admin_reply (some uid) msgs adminId t false).replyTo)
        msgs2 adminId t2 ok2).attempted = none := by
  simp [handle_admin_reply]

/-- C10: the `admin_to_user` message (carrying the responding admin's
identity) is appended to the log exactly when the delivery succeeds; on a
failed delivery the log is unchanged. -/
theorem handle_admin_reply_persistence (uid adminId : ℤ)
    (msgs : List MessageModel) (t : String) :
    (handle_admin_reply (some uid) msgs adminId t false).msgs = msgs
    ∧ (handle_admin_reply (some uid) msgs adminId t true).msgs =
        msgs ++ [{ user_id := uid, message_text := t,
                   direction := "admin_to_user", admin_id := some adminId }]
    ∧ ∀ ok : Bool, (handle_admin_reply (some uid) msgs adminId t ok).msgs =
        (if ok then
          msgs ++ [{ user_id := uid, message_text := t,
                     direction := "admin_to_user", admin_id := some adminId }]
         else msgs) := by
  refine ⟨rfl, rfl, ?_⟩
  intro ok
  cases ok <;> rfl

/-- Count of users reported at broadcast entry, and the conversation
state the handler moves to (`WAITING_FOR_BROADCAST = 2`). -/
structure BroadcastEntry where
  reported_count : ℕ
  next_state : ℕ
deriving DecidableEq

/-- Embedding of `broadcast_handler`: the entry message interpolates
`UserRepository.get_user_count()` and the handler returns
`WAITING_FOR_BROADCAST`. -/
def broadcast_handler (st : Store) : BroadcastEntry :=
  { reported_count := get_user_count st, next_state := 2 }

/-- C7 counterexample: with one blocked and one non-blocked user the
entry message reports 2, but only 1 user is non-blocked, so the reported
number is not the number of users whose blocked flag is false. -/
theorem broadcast_handler_counterexample :
    (broadcast_handler
      ⟨[⟨1, none, none, none, true⟩, ⟨2, none, none, none, false⟩], []⟩).reported_count = 2
    ∧ (([⟨1, none, none, none, true⟩, ⟨2, none, none, none, false⟩] :
        List UserModel).filter (fun u => !u.is_blocked)).length = 1
    ∧ (2 : ℕ) ≠ 1 := by
  refine ⟨rfl, rfl, by decide⟩

/-- C7 amended: the broadcast entry message reports the total number of
stored users — the blocked ones and the non-blocked ones together — not
the count of addressable (non-blocked) users. -/
theorem broadcast_handler_reports_total (st : Store) :
    (broadcast_handler st).reported_count =
      (st.users.filter (fun u => u.is_blocked)).length +
      (st.users.filter (fun u => !u.is_blocked)).length := by
  have h := List.length_eq_length_filter_add (l := st.users)
    (fun u => u.is_blocked)
  simpa [broadcast_handler, get_user_count] using h

/-- Inline-keyboard action arriving at `broadcast_confirm_callback`
(`query.data` is either `broadcast_confirm` or `broadcast_cancel`). -/
inductive BroadcastAction
  | confirm
  | cancel
deriving DecidableEq

/-- Observable outcome of one `broadcast_confirm_callback` call: the
users to whom delivery was attempted, the tally, the report shown to the
admin, the `broadcast_message` key afterwards, and whether the
conversation ended. -/
structure BroadcastResult where
  attempts : List ℤ
  sent : ℕ
  failed : ℕ
  report : Option (ℕ × ℕ)
  pending : Option String
  ended : Bool
deriving DecidableEq

/-- Embedding of `broadcast_confirm_callback`.  `pending` is the
`broadcast_message` entry of `context.user_data`; `deliverOk` is whether
`bot.send_message` to a given user succeeds (the bare `except` around
each delivery).  An empty pending body is falsy in Python and takes the
"no message found" branch without popping the key. -/
def broadcast_confirm_callback (st : Store) (action : BroadcastAction)
    (pending : Option String) (deliverOk : ℤ → Bool) : BroadcastResult :=
  match action with
  | BroadcastAction.cancel => ⟨[], 0, 0, none, none, true⟩
  | BroadcastAction.confirm =>
    match pending with
    | none => ⟨[], 0, 0, none, none, true⟩
    | some b =>
      if b = "" then ⟨[], 0, 0, none, some b, true⟩
      else
        let users := get_all_active st
        let sent := (users.filter (fun u => deliverOk u.user_id)).length
        let failed := (users.filter (fun u => !deliverOk u.user_id)).length
        ⟨users.map (fun u => u.user_id), sent, failed, some (sent, failed),
          none, true⟩

/-- A user record that only carries an identity, with every optional
field defaulted and the blocked flag false. -/
def activeUser (i : ℤ) : UserModel := { user_id := i }

/-- A store with 1001 non-blocked users, exceeding the `limit(1000)` of
`get_all_active`. -/
def bigStore : Store :=
  ⟨(List.range 1001).map (fun i => activeUser (Int.ofNat i)), []⟩

set_option maxRecDepth 8000 in
/-- C3 counterexample: a confirmed broadcast over 1001 non-blocked users
makes only 1000 delivery attempts, because `get_all_active` truncates the
snapshot at 1000; so the claim that every user in the set of all
non-blocked users receives exactly one attempt fails. -/
theorem broadcast_confirm_callback_counterexample :
    (broadcast_confirm_callback bigStore BroadcastAction.confirm (some "hi")
      (fun _ => true)).attempts.length = 1000
    ∧ (bigStore.users.filter (fun u => !u.is_blocked)).length = 1001
    ∧ (1000 : ℕ) ≠ 1001 := by
  have husers : bigStore.users =
      (List.range 1001).map (fun i => activeUser (Int.ofNat i)) := rfl
  have hfilter : bigStore.users.filter (fun u => !u.is_blocked) =
      bigStore.users := by
    apply List.filter_eq_self.mpr
    intro u hu
    rw [husers] at hu
    rcases List.mem_map.mp hu with ⟨i, _, rfl⟩
    rfl
  have hlen : bigStore.users.length = 1001 := by
    rw [husers, List.length_map, List.length_range]
  refine ⟨?_, ?_, by decide⟩
  · show (((bigStore.users.filter (fun u => !u.is_blocked)).take 1000).map
      (fun u => u.user_id)).length = 1000
    rw [hfilter, List.length_map, List.length_take, hlen]
    norm_num
  · rw [hfilter, hlen]

/-- C3 amended: a confirmed broadcast with a non-empty body snapshots the
first up-to-1000 non-blocked users, attempts exactly one delivery to each
user in that snapshot (in snapshot order), reports a tally whose parts
sum to the snapshot size, clears the pending body, and ends the
conversation. -/
theorem broadcast_confirm_callback_spec (st : Store) (b : String)
    (deliverOk : ℤ → Bool) (hb : b ≠ "") :
    (broadcast_confirm_callback st BroadcastAction.confirm (some b)
      deliverOk).attempts = (get_all_active st).map (fun u => u.user_id)
    ∧ (broadcast_confirm_callback st BroadcastAction.confirm (some b)
        deliverOk).sent +
      (broadcast_confirm_callback st BroadcastAction.confirm (some b)
        deliverOk).failed = (get_all_active st).length
    ∧ (broadcast_confirm_callback st BroadcastAction.confirm (some b)
        deliverOk).report =
        some ((broadcast_confirm_callback st BroadcastAction.confirm (some b)
          deliverOk).sent,
         (broadcast_confirm_callback st BroadcastAction.confirm (some b)
          deliverOk).failed)
    ∧ (broadcast_confirm_callback st BroadcastAction.confirm (some b)
        deliverOk).pending = none
    ∧ (broadcast_confirm_callback st BroadcastAction.confirm (some b)
        deliverOk).ended = true := by
  have hsum : ((get_all_active st).filter
        (fun u => deliverOk u.user_id)).length +
      ((get_all_active st).filter (fun u => !deliverOk u.user_id)).length =
      (get_all_active st).length :=
    (List.length_eq_length_filter_add (l := get_all_active st)
      (fun u => deliverOk u.user_id)).symm
  have key : broadcast_confirm_callback st BroadcastAction.confirm (some b)
      deliverOk =
      ⟨(get_all_active st).map (fun u => u.user_id),
       ((get_all_active st).filter (fun u => deliverOk u.user_id)).length,
       ((get_all_active st).filter (fun u => !deliverOk u.user_id)).length,
       some (((get_all_active st).filter (fun u => deliverOk u.user_id)).length,
             ((get_all_active st).filter (fun u => !deliverOk u.user_id)).length),
       none, true⟩ := by
    simp only [broadcast_confirm_callback]
    rw [if_neg hb]
  rw [key]
  exact ⟨rfl, hsum, rfl, rfl, rfl⟩

/-- Witness for C3 (amended) at the tally example: users 1, 2, 3 with
delivery to 2 failing; the theorem applies with the non-empty body. -/
theorem broadcast_confirm_callback_spec_witness :
    (broadcast_confirm_callback ⟨[activeUser 1, activeUser 2, activeUser 3], []⟩
      BroadcastAction.confirm (some "hi") (fun i => !(i == 2))).attempts =
      (get_all_active ⟨[activeUser 1, activeUser 2, activeUser 3], []⟩).map
        (fun u => u.user_id)
    ∧ (broadcast_confirm_callback ⟨[activeUser 1, activeUser 2, activeUser 3], []⟩
        BroadcastAction.confirm (some "hi") (fun i => !(i == 2))).sent +
      (broadcast_confirm_callback ⟨[activeUser 1, activeUser 2, activeUser 3], []⟩
        BroadcastAction.confirm (some "hi") (fun i => !(i == 2))).failed =
      (get_all_active ⟨[activeUser 1, activeUser 2, activeUser 3], []⟩).length
    ∧ (broadcast_confirm_callback ⟨[activeUser 1, activeUser 2, activeUser 3], []⟩
        BroadcastAction.confirm (some "hi") (fun i => !(i == 2))).report =
        some ((broadcast_confirm_callback
          ⟨[activeUser 1, activeUser 2, activeUser 3], []⟩
          BroadcastAction.confirm (some "hi") (fun i => !(i == 2))).sent,
         (broadcast_confirm_callback
          ⟨[activeUser 1, activeUser 2, activeUser 3], []⟩
          BroadcastAction.confirm (some "hi") (fun i => !(i == 2))).failed)
    ∧ (broadcast_confirm_callback ⟨[activeUser 1, activeUser 2, activeUser 3], []⟩
        BroadcastAction.confirm (some "hi") (fun i => !(i == 2))).pending = none
    ∧ (broadcast_confirm_callback ⟨[activeUser 1, activeUser 2, activeUser 3], []⟩
        BroadcastAction.confirm (some "hi") (fun i => !(i == 2))).ended = true :=
  broadcast_confirm_callback_spec ⟨[activeUser 1, activeUser 2, activeUser 3], []⟩
    "hi" (fun i => !(i == 2)) (by decide)
